import Mathlib

/-!
Verification of the progressive sample-accumulation core of the
GyrosOfWar/raytracer browser front end.

The embedded functions come from:
  - src/browser/src/App.tsx   : add, toImageBuffer, callWorker, App (useEffect)
  - src/browser/src/render.ts : renderImage
  - src/browser/src/worker.ts : self.onmessage
  - src/unnamed/part_000      : App (useEffect) variant that merges a sample
    and draws the canvas in one effect pass.

JavaScript numbers are modelled by `JSNum`: NaN, the two infinities, and
finite values taken as exact rationals.  The model keeps the exact IEEE-754
special-value rules for addition, multiplication, division and floor, and
the ECMAScript ToUint8Clamp conversion performed by the
`new Uint8ClampedArray(...)` constructors in the source; it abstracts away
float32 rounding of in-range finite values (finite arithmetic is exact).
All concrete values used in witnesses and counterexamples are exactly
representable in float32, so the abstraction does not affect them.
-/

namespace Raytracer

/-- Model of a JavaScript number: NaN, plus or minus infinity, or a finite
value represented as an exact rational. -/
inductive JSNum where
  | nan : JSNum
  | posInf : JSNum
  | negInf : JSNum
  | fin : ℚ → JSNum
deriving DecidableEq, Repr

instance : Inhabited JSNum := ⟨JSNum.nan⟩

/-- JavaScript `+` on numbers (IEEE-754 addition; finite part exact). -/
def jsAdd : JSNum → JSNum → JSNum
  | JSNum.nan, _ => JSNum.nan
  | _, JSNum.nan => JSNum.nan
  | JSNum.posInf, JSNum.negInf => JSNum.nan
  | JSNum.negInf, JSNum.posInf => JSNum.nan
  | JSNum.posInf, _ => JSNum.posInf
  | _, JSNum.posInf => JSNum.posInf
  | JSNum.negInf, _ => JSNum.negInf
  | _, JSNum.negInf => JSNum.negInf
  | JSNum.fin a, JSNum.fin b => JSNum.fin (a + b)

/-- JavaScript `*` on numbers (IEEE-754 multiplication; finite part exact). -/
def jsMul : JSNum → JSNum → JSNum
  | JSNum.nan, _ => JSNum.nan
  | _, JSNum.nan => JSNum.nan
  | JSNum.posInf, JSNum.posInf => JSNum.posInf
  | JSNum.posInf, JSNum.negInf => JSNum.negInf
  | JSNum.negInf, JSNum.posInf => JSNum.negInf
  | JSNum.negInf, JSNum.negInf => JSNum.posInf
  | JSNum.posInf, JSNum.fin q =>
    if 0 < q then JSNum.posInf else if q < 0 then JSNum.negInf else JSNum.nan
  | JSNum.fin q, JSNum.posInf =>
    if 0 < q then JSNum.posInf else if q < 0 then JSNum.negInf else JSNum.nan
  | JSNum.negInf, JSNum.fin q =>
    if 0 < q then JSNum.negInf else if q < 0 then JSNum.posInf else JSNum.nan
  | JSNum.fin q, JSNum.negInf =>
    if 0 < q then JSNum.negInf else if q < 0 then JSNum.posInf else JSNum.nan
  | JSNum.fin a, JSNum.fin b => JSNum.fin (a * b)

/-- JavaScript `/` on numbers.  Division of a nonzero finite value by zero
yields a signed infinity and `0 / 0` yields NaN, exactly as in IEEE-754;
signed zero is collapsed to `0` (no claim in scope distinguishes them). -/
def jsDiv : JSNum → JSNum → JSNum
  | JSNum.nan, _ => JSNum.nan
  | _, JSNum.nan => JSNum.nan
  | JSNum.posInf, JSNum.posInf => JSNum.nan
  | JSNum.posInf, JSNum.negInf => JSNum.nan
  | JSNum.negInf, JSNum.posInf => JSNum.nan
  | JSNum.negInf, JSNum.negInf => JSNum.nan
  | JSNum.posInf, JSNum.fin q => if 0 ≤ q then JSNum.posInf else JSNum.negInf
  | JSNum.negInf, JSNum.fin q => if 0 ≤ q then JSNum.negInf else JSNum.posInf
  | JSNum.fin _, JSNum.posInf => JSNum.fin 0
  | JSNum.fin _, JSNum.negInf => JSNum.fin 0
  | JSNum.fin a, JSNum.fin b =>
    if b = 0 then
      if 0 < a then JSNum.posInf else if a < 0 then JSNum.negInf else JSNum.nan
    else JSNum.fin (a / b)

/-- JavaScript `Math.floor` (IEEE floor; NaN and infinities pass through). -/
def jsFloor : JSNum → JSNum
  | JSNum.nan => JSNum.nan
  | JSNum.posInf => JSNum.posInf
  | JSNum.negInf => JSNum.negInf
  | JSNum.fin q => JSNum.fin (⌊q⌋ : ℚ)

/-- ECMAScript ToUint8Clamp, the per-element conversion performed by the
`new Uint8ClampedArray(...)` constructor: NaN maps to 0, values at or below
0 map to 0, values at or above 255 map to 255, and in-range values round
half to even. -/
def toUint8Clamp : JSNum → ℕ
  | JSNum.nan => 0
  | JSNum.negInf => 0
  | JSNum.posInf => 255
  | JSNum.fin q =>
    if q ≤ 0 then 0
    else if 255 ≤ q then 255
    else if (⌊q⌋ : ℚ) + 1 / 2 < q then (⌊q⌋ + 1).toNat
    else if q < (⌊q⌋ : ℚ) + 1 / 2 then (⌊q⌋).toNat
    else if ⌊q⌋ % 2 = 0 then (⌊q⌋).toNat else (⌊q⌋ + 1).toNat

/-- Embedding of `add` (src/browser/src/App.tsx lines 6-8 and
src/unnamed/part_000 lines 6-8):
`a.map((_, i) => a[i] + b[i])`.  The result has the length of `a`;
reading `b[i]` past the end of `b` yields `undefined`, and
`number + undefined` is NaN. -/
def add (a b : List JSNum) : List JSNum :=
  (List.range a.length).map fun i =>
    match a[i]?, b[i]? with
    | some x, some y => jsAdd x y
    | _, _ => JSNum.nan

/-- Embedding of `toImageBuffer` (src/browser/src/App.tsx lines 10-17):
`new Uint8ClampedArray(buffer.map((x) => Math.floor((x / numSamples) * 255)))`. -/
def toImageBuffer (buffer : List JSNum) (numSamples : ℕ) : List ℕ :=
  buffer.map fun x =>
    toUint8Clamp (jsFloor (jsMul (jsDiv x (JSNum.fin (numSamples : ℚ))) (JSNum.fin 255)))

/-- Embedding of `renderImage` (src/browser/src/render.ts lines 3-6),
parameterised by the float buffer produced by the external
`create_spectrum_image` collaborator:
`new Uint8ClampedArray(floatImage.map((x) => Math.floor(x * 255)))`. -/
def renderImage (floatImage : List JSNum) : List ℕ :=
  floatImage.map fun x => toUint8Clamp (jsFloor (jsMul x (JSNum.fin 255)))

/-- The accumulation state of the App component: the running-sum buffer
(`buffer` ref) and the merged-sample counter (`numSamples` state). -/
@[ext]
structure AccumState where
  sum : List JSNum
  sampleCount : ℕ
deriving DecidableEq, Repr

/-- The state at session start (src/unnamed/part_000 lines 24-25):
`numSamples = 0` and `buffer = new Float32Array(n)`, which is all zeros. -/
def emptyAccum (n : ℕ) : AccumState :=
  ⟨List.replicate n (JSNum.fin 0), 0⟩

/-- One merge step as performed by the App effect (src/unnamed/part_000
lines 29-31): `setNumSamples((n) => n + 1); buffer.current =
add(buffer.current, newSamples)`.  No length check is performed. -/
def merge (st : AccumState) (sample : List JSNum) : AccumState :=
  ⟨add st.sum sample, st.sampleCount + 1⟩

/-- Folding a list of sample buffers into the state by repeated `merge`. -/
def mergeAll (st : AccumState) (samples : List (List JSNum)) : AccumState :=
  samples.foldl merge st

/-- Embedding of the App effect body of src/unnamed/part_000 lines 27-44,
run from a pre-state `(b0, n0)` on an incoming sample `s`.  The buffer ref
is updated synchronously to `add b0 s`, the `setNumSamples` update takes
effect only after the pass (post-state count `n0 + 1`), and the canvas is
painted from `toImageBuffer(buffer.current, numSamples)` where
`numSamples` is the closure value `n0` of the current pass.  Returns the
post-state `(buffer, count)` and the painted image. -/
def appEffect (b0 : List JSNum) (n0 : ℕ) (s : List JSNum) :
    (List JSNum × ℕ) × List ℕ :=
  let b1 := add b0 s
  ((b1, n0 + 1), toImageBuffer b1 n0)

/-- Event names for which `callWorker` (src/browser/src/App.tsx lines
19-27) registers a listener: the source contains exactly one
`worker.addEventListener("message", ...)` call and nothing else. -/
def callWorkerListeners : List String := ["message"]

/-- Events a worker context can deliver to the main context: a completion
message carrying the posted image, an error event, or silent termination. -/
inductive WorkerEvent where
  | message : List ℕ → WorkerEvent
  | error : WorkerEvent
  | terminate : WorkerEvent
deriving DecidableEq

/-- Effect of a worker event on the accumulation state under `callWorker`
(src/browser/src/App.tsx lines 19-27): the message listener body is
`console.log(event)`, which does not touch the state, and no listener at
all is registered for error or termination. -/
def callWorkerStep (st : AccumState) : WorkerEvent → AccumState
  | WorkerEvent.message _ => st
  | WorkerEvent.error => st
  | WorkerEvent.terminate => st

/-- Whether any listener registered by `callWorker` fires on the event:
only `"message"` events have a handler. -/
def callWorkerObserves : WorkerEvent → Bool
  | WorkerEvent.message _ => true
  | WorkerEvent.error => false
  | WorkerEvent.terminate => false

/-- A heap of float buffers, for stating what `add` does and does not
write.  References are indices into the heap. -/
structure Store where
  bufs : List (List JSNum)
deriving DecidableEq

/-- Heap-level embedding of a call `add(a, b)`: `a.map(...)` reads the two
operand buffers and allocates a fresh result buffer; no existing cell is
written.  Returns the new store and the reference to the fresh buffer. -/
def addOnStore (store : Store) (ra rb : ℕ) : Store × ℕ :=
  (⟨store.bufs ++ [add (store.bufs.getD ra []) (store.bufs.getD rb [])]⟩,
   store.bufs.length)

/-- Modelled from the wording of the spec, for comparison with the code:
round half up, `round(x) = floor(x + 1/2)`. -/
def specRoundHalfUp (x : ℚ) : ℤ := ⌊x + 1 / 2⌋

/-- Clamp an integer to the byte range `[0, 255]`, as a natural number. -/
def specClampByte (z : ℤ) : ℕ := min 255 z.toNat

/-- Modelled from the wording of the spec: the display byte the spec
prescribes, `clamp(round(sum[i] / sampleCount * 255), 0, 255)` with
round half up. -/
def specDisplayByte (v : ℚ) (n : ℕ) : ℕ :=
  specClampByte (specRoundHalfUp (v / (n : ℚ) * 255))

/-- The display byte the code actually produces on finite data with
`numSamples ≥ 1`: `clamp(floor(sum[i] / numSamples * 255), 0, 255)`. -/
def codeDisplayByte (v : ℚ) (n : ℕ) : ℕ :=
  specClampByte ⌊v / (n : ℚ) * 255⌋

/-- The byte the code produces at `numSamples = 0`: the division by zero
sends positive channels to plus infinity (clamped to 255) and everything
else (zero, negative, NaN) to 0. -/
def byteAtZeroSamples : JSNum → ℕ
  | JSNum.fin q => if 0 < q then 255 else 0
  | JSNum.posInf => 255
  | JSNum.negInf => 0
  | JSNum.nan => 0

/-! Helper lemmas about the embedded operations. -/

theorem jsAdd_nan_right (x : JSNum) : jsAdd x JSNum.nan = JSNum.nan := by
  cases x <;> rfl

theorem jsAdd_nan_left (y : JSNum) : jsAdd JSNum.nan y = JSNum.nan := by
  cases y <;> rfl

theorem jsAdd_right_comm (z x y : JSNum) :
    jsAdd (jsAdd z x) y = jsAdd (jsAdd z y) x := by
  cases z <;> cases x <;> cases y <;> simp [jsAdd, add_right_comm]

theorem add_length (a b : List JSNum) : (add a b).length = a.length := by
  simp [add]

/-- The value the `add` callback produces at index `i`: the sum of the two
entries when both exist, NaN when the second buffer is too short. -/
def addVal (a b : List JSNum) (i : ℕ) : JSNum :=
  match a[i]?, b[i]? with
  | some x, some y => jsAdd x y
  | _, _ => JSNum.nan

theorem add_getElem? (a b : List JSNum) (i : ℕ) :
    (add a b)[i]? = if i < a.length then some (addVal a b i) else none := by
  by_cases h : i < a.length
  · rw [if_pos h]
    unfold add
    rw [List.getElem?_map, List.getElem?_range h, Option.map_some']
    rfl
  · rw [if_neg h]
    exact List.getElem?_eq_none (by rw [add_length]; exact le_of_not_lt h)

theorem addVal_both {a b : List JSNum} {i : ℕ}
    (hia : i < a.length) (hib : i < b.length) :
    addVal a b i = jsAdd (a.getD i JSNum.nan) (b.getD i JSNum.nan) := by
  unfold addVal
  rw [List.getElem?_eq_getElem hia, List.getElem?_eq_getElem hib,
    List.getD_eq_getElem a JSNum.nan hia, List.getD_eq_getElem b JSNum.nan hib]

theorem addVal_right_short {a b : List JSNum} {i : ℕ}
    (hia : i < a.length) (hib : b.length ≤ i) :
    addVal a b i = JSNum.nan := by
  unfold addVal
  rw [List.getElem?_eq_getElem hia, List.getElem?_eq_none hib]

theorem addVal_right_comm (s a b : List JSNum) (i : ℕ) (hs : i < s.length) :
    addVal (add s a) b i = addVal (add s b) a i := by
  have hsa : i < (add s a).length := by rw [add_length]; exact hs
  have hsb : i < (add s b).length := by rw [add_length]; exact hs
  by_cases ha : i < a.length <;> by_cases hb : i < b.length
  · rw [addVal_both hsa hb, addVal_both hsb ha,
      List.getD_eq_getElem _ _ hsa, List.getD_eq_getElem _ _ hsb]
    have va : (add s a)[i] = addVal s a i := by
      have h1 := add_getElem? s a i
      rw [if_pos hs, List.getElem?_eq_getElem hsa] at h1
      exact Option.some_inj.mp h1
    have vb : (add s b)[i] = addVal s b i := by
      have h1 := add_getElem? s b i
      rw [if_pos hs, List.getElem?_eq_getElem hsb] at h1
      exact Option.some_inj.mp h1
    rw [va, vb, addVal_both hs ha, addVal_both hs hb]
    exact jsAdd_right_comm _ _ _
  · rw [addVal_right_short hsa (le_of_not_lt hb), addVal_both hsb ha,
      List.getD_eq_getElem _ _ hsb]
    have vb : (add s b)[i] = addVal s b i := by
      have h1 := add_getElem? s b i
      rw [if_pos hs, List.getElem?_eq_getElem hsb] at h1
      exact Option.some_inj.mp h1
    rw [vb, addVal_right_short hs (le_of_not_lt hb), jsAdd_nan_left]
  · rw [addVal_right_short hsb (le_of_not_lt ha), addVal_both hsa hb,
      List.getD_eq_getElem _ _ hsa]
    have va : (add s a)[i] = addVal s a i := by
      have h1 := add_getElem? s a i
      rw [if_pos hs, List.getElem?_eq_getElem hsa] at h1
      exact Option.some_inj.mp h1
    rw [va, addVal_right_short hs (le_of_not_lt ha), jsAdd_nan_left]
  · rw [addVal_right_short hsa (le_of_not_lt hb),
      addVal_right_short hsb (le_of_not_lt ha)]

theorem add_right_comm (s a b : List JSNum) :
    add (add s a) b = add (add s b) a := by
  apply List.ext_getElem?
  intro i
  rw [add_getElem?, add_getElem?, add_length, add_length]
  by_cases hs : i < s.length
  · rw [if_pos hs, if_pos hs, addVal_right_comm s a b i hs]
  · rw [if_neg hs, if_neg hs]

theorem mergeAll_sampleCount (l : List (List JSNum)) (st : AccumState) :
    (mergeAll st l).sampleCount = st.sampleCount + l.length := by
  induction l generalizing st with
  | nil => rfl
  | cons hd tl ih =>
    show (mergeAll (merge st hd) tl).sampleCount = _
    rw [ih (merge st hd)]
    show st.sampleCount + 1 + tl.length = st.sampleCount + (tl.length + 1)
    omega

theorem mergeAll_sum (l : List (List JSNum)) (st : AccumState) :
    (mergeAll st l).sum = l.foldl add st.sum := by
  induction l generalizing st with
  | nil => rfl
  | cons hd tl ih => exact ih (merge st hd)

theorem toUint8Clamp_intCast (m : ℤ) :
    toUint8Clamp (JSNum.fin (m : ℚ)) = specClampByte m := by
  simp only [toUint8Clamp, specClampByte]
  by_cases h0 : (m : ℚ) ≤ 0
  · have hm : m ≤ 0 := by exact_mod_cast h0
    rw [if_pos h0, Int.toNat_of_nonpos hm]
    omega
  · rw [if_neg h0]
    by_cases h255 : (255 : ℚ) ≤ (m : ℚ)
    · have hm : (255 : ℤ) ≤ m := by exact_mod_cast h255
      rw [if_pos h255]
      omega
    · have hm : m < 255 := by
        have : (m : ℚ) < 255 := lt_of_not_ge h255
        exact_mod_cast this
      rw [if_neg h255]
      simp only [Int.floor_intCast]
      have hlt : ¬ ((m : ℚ) + 1 / 2 < (m : ℚ)) := by norm_num
      have hgt : (m : ℚ) < (m : ℚ) + 1 / 2 := by norm_num
      rw [if_neg hlt, if_pos hgt]
      omega

theorem displayByte_of_fin (q : ℚ) (n : ℕ) (hn : 1 ≤ n) :
    toUint8Clamp (jsFloor (jsMul (jsDiv (JSNum.fin q) (JSNum.fin (n : ℚ))) (JSNum.fin 255)))
      = codeDisplayByte q n := by
  have hn0 : ((n : ℚ)) ≠ 0 := Nat.cast_ne_zero.mpr (by omega)
  show toUint8Clamp (jsFloor (jsMul (if (n : ℚ) = 0 then _ else JSNum.fin (q / (n : ℚ)))
    (JSNum.fin 255))) = _
  rw [if_neg hn0]
  show toUint8Clamp (jsFloor (JSNum.fin (q / (n : ℚ) * 255))) = _
  show toUint8Clamp (JSNum.fin ((⌊q / (n : ℚ) * 255⌋ : ℤ) : ℚ)) = _
  rw [toUint8Clamp_intCast]
  rfl

theorem toUint8Clamp_le (x : JSNum) : toUint8Clamp x ≤ 255 := by
  cases x with
  | nan => exact Nat.zero_le 255
  | negInf => exact Nat.zero_le 255
  | posInf => exact le_refl 255
  | fin q =>
    simp only [toUint8Clamp]
    by_cases h0 : q ≤ 0
    · rw [if_pos h0]; exact Nat.zero_le 255
    · rw [if_neg h0]
      by_cases h255 : (255 : ℚ) ≤ q
      · rw [if_pos h255]
      · rw [if_neg h255]
        have hf : ⌊q⌋ < 255 := by
          rw [Int.floor_lt]
          push_cast
          exact lt_of_not_ge h255
        split_ifs <;> omega

theorem add_replicate_zero (k : ℕ) (v : ℚ) :
    add (List.replicate k (JSNum.fin 0)) (List.replicate k (JSNum.fin v))
      = List.replicate k (JSNum.fin v) := by
  apply List.ext_getElem?
  intro i
  rw [add_getElem?, List.length_replicate]
  by_cases hi : i < k
  · rw [if_pos hi, List.getElem?_replicate, if_pos hi,
      addVal_both (by rw [List.length_replicate]; exact hi)
        (by rw [List.length_replicate]; exact hi)]
    rw [List.getD_eq_getElem _ _ (by rw [List.length_replicate]; exact hi),
      List.getD_eq_getElem _ _ (by rw [List.length_replicate]; exact hi),
      List.getElem_replicate, List.getElem_replicate]
    simp [jsAdd]
  · rw [if_neg hi, List.getElem?_replicate, if_neg hi]

theorem toImageBuffer_map_fin (buf : List ℚ) (n : ℕ) (hn : 1 ≤ n) :
    toImageBuffer (buf.map JSNum.fin) n = buf.map (fun q => codeDisplayByte q n) := by
  unfold toImageBuffer
  rw [List.map_map]
  congr 1
  funext q
  exact displayByte_of_fin q n hn

/-! Claim theorems. -/

/-- C1, counterexample: the claim states that with `sampleCount = 1` and a
sum buffer whose single channel is `0.5`, the output byte is
`clamp(round(0.5 * 255), 0, 255) = 128` (round half up).  The code applies
`Math.floor` instead and produces `127`, so the claim is false. -/
theorem C1_counterexample :
    toImageBuffer [JSNum.fin (1 / 2)] 1 = [127]
    ∧ specDisplayByte (1 / 2) 1 = 128
    ∧ (127 : ℕ) ≠ 128 := by
  refine ⟨by with_unfolding_all rfl, by with_unfolding_all rfl, by decide⟩

/-- C1, amended: for every accumulation state with `sampleCount >= 1` and
finite sums, `toImageBuffer` returns at every index the byte
`clamp(floor(sum[i] / sampleCount * 255), 0, 255)` (floor, not round half
up); after merging exactly one buffer whose every element equals `v`,
every output byte equals `clamp(floor(v * 255), 0, 255)`, so a channel
averaging `0.5` yields `127`, not `128`. -/
theorem C1_toImageBuffer_floors (buf : List ℚ) (v : ℚ) (n k : ℕ) (hn : 1 ≤ n) :
    toImageBuffer (buf.map JSNum.fin) n = buf.map (fun q => codeDisplayByte q n)
    ∧ toImageBuffer (merge (emptyAccum k) (List.replicate k (JSNum.fin v))).sum
        (merge (emptyAccum k) (List.replicate k (JSNum.fin v))).sampleCount
      = List.replicate k (codeDisplayByte v 1)
    ∧ codeDisplayByte (1 / 2) 1 = 127 := by
  refine ⟨toImageBuffer_map_fin buf n hn, ?_, by with_unfolding_all rfl⟩
  have h1 : (merge (emptyAccum k) (List.replicate k (JSNum.fin v))).sum
      = List.replicate k (JSNum.fin v) := add_replicate_zero k v
  have h2 : (merge (emptyAccum k) (List.replicate k (JSNum.fin v))).sampleCount = 1 := rfl
  rw [h1, h2, ← List.map_replicate, toImageBuffer_map_fin _ 1 (by norm_num),
    List.map_replicate]

/-- C1, witness for the amended theorem at `buf = [1/2]`, `n = 1`. -/
theorem C1_toImageBuffer_floors_witness :
    toImageBuffer ([(1 / 2 : ℚ)].map JSNum.fin) 1
      = [(1 / 2 : ℚ)].map (fun q => codeDisplayByte q 1) :=
  (C1_toImageBuffer_floors [(1 / 2 : ℚ)] (1 / 2) 1 1 (by norm_num)).1

/-- C2, counterexample: merging a sample buffer whose length differs from
the accumulator length does not fail with `DimensionMismatch` and does not
leave the state unchanged: `add` has no length check.  A shorter sample
leaves NaN in the uncovered tail, a longer sample is silently truncated to
the accumulator length, and `sampleCount` is incremented in both cases. -/
theorem C2_counterexample :
    merge (emptyAccum 2) [JSNum.fin 1] = AccumState.mk [JSNum.fin 1, JSNum.nan] 1
    ∧ merge (emptyAccum 1) [JSNum.fin 2, JSNum.fin 3] = AccumState.mk [JSNum.fin 2] 1 := by
  refine ⟨by with_unfolding_all rfl, by with_unfolding_all rfl⟩

/-- C2, amended: a merge with a mismatched sample buffer never fails and
never leaves the state unchanged.  The new sum always has the length of
the old sum; at indices the sample covers, the entries are added, at
indices past the end of the sample the sum entry becomes NaN (the sample
is truncated or NaN-padded to fit); `sampleCount` is incremented
regardless of the mismatch. -/
theorem C2_merge_unguarded (st : AccumState) (s : List JSNum) (i : ℕ) :
    (merge st s).sampleCount = st.sampleCount + 1
    ∧ (merge st s).sum.length = st.sum.length
    ∧ (i < st.sum.length → s.length ≤ i → (merge st s).sum[i]? = some JSNum.nan)
    ∧ (i < st.sum.length → i < s.length →
        (merge st s).sum[i]? = some (jsAdd (st.sum.getD i JSNum.nan) (s.getD i JSNum.nan))) := by
  refine ⟨rfl, add_length st.sum s, ?_, ?_⟩
  · intro hi hs
    show (add st.sum s)[i]? = some JSNum.nan
    rw [add_getElem?, if_pos hi, addVal_right_short hi hs]
  · intro hi hs
    show (add st.sum s)[i]? = _
    rw [add_getElem?, if_pos hi, addVal_both hi hs]

/-- C2, witness for the amended theorem: the mismatched merge of a
one-element sample into a two-element accumulator NaN-fills index 1 and
adds at index 0. -/
theorem C2_merge_unguarded_witness :
    (merge (emptyAccum 2) [JSNum.fin 1]).sum[1]? = some JSNum.nan
    ∧ (merge (emptyAccum 2) [JSNum.fin 1]).sum[0]?
        = some (jsAdd ((emptyAccum 2).sum.getD 0 JSNum.nan)
            (([JSNum.fin 1] : List JSNum).getD 0 JSNum.nan)) :=
  ⟨(C2_merge_unguarded (emptyAccum 2) [JSNum.fin 1] 1).2.2.1 (by decide) (by decide),
   (C2_merge_unguarded (emptyAccum 2) [JSNum.fin 1] 0).2.2.2 (by decide) (by decide)⟩

/-- C3, counterexample: requesting the display image at `sampleCount = 0`
does not fail with `NoSamplesYet`: the code divides by zero and returns an
image (positive sums clamp to 255). -/
theorem C3_counterexample :
    toImageBuffer [JSNum.fin 1] 0 = [255]
    ∧ toImageBuffer [JSNum.fin 1, JSNum.fin 0] 0 = [255, 0] := by
  refine ⟨by with_unfolding_all rfl, by with_unfolding_all rfl⟩

/-- C3, amended: at `sampleCount = 0` the code returns an image rather
than an error: the division by zero sends every positive channel to plus
infinity, which clamps to byte 255, and every zero, negative, NaN or
minus-infinity channel to byte 0. -/
theorem C3_zero_samples_image (buf : List JSNum) :
    toImageBuffer buf 0 = buf.map byteAtZeroSamples := by
  unfold toImageBuffer
  congr 1
  funext x
  cases x with
  | nan => rfl
  | posInf =>
    show toUint8Clamp (jsFloor (jsMul (if (0 : ℚ) ≤ ((0 : ℕ) : ℚ) then JSNum.posInf
      else JSNum.negInf) (JSNum.fin 255))) = 255
    rw [if_pos (by norm_num)]
    show toUint8Clamp (jsFloor (if (0 : ℚ) < 255 then JSNum.posInf
      else if (255 : ℚ) < 0 then JSNum.negInf else JSNum.nan)) = 255
    rw [if_pos (by norm_num)]
    rfl
  | negInf =>
    show toUint8Clamp (jsFloor (jsMul (if (0 : ℚ) ≤ ((0 : ℕ) : ℚ) then JSNum.negInf
      else JSNum.posInf) (JSNum.fin 255))) = 0
    rw [if_pos (by norm_num)]
    show toUint8Clamp (jsFloor (if (0 : ℚ) < 255 then JSNum.negInf
      else if (255 : ℚ) < 0 then JSNum.posInf else JSNum.nan)) = 0
    rw [if_pos (by norm_num)]
    rfl
  | fin q =>
    show toUint8Clamp (jsFloor (jsMul (jsDiv (JSNum.fin q) (JSNum.fin ((0 : ℕ) : ℚ)))
      (JSNum.fin 255))) = byteAtZeroSamples (JSNum.fin q)
    have hz : ((0 : ℕ) : ℚ) = 0 := Nat.cast_zero
    rw [hz]
    show toUint8Clamp (jsFloor (jsMul (if (0 : ℚ) = 0 then
      (if 0 < q then JSNum.posInf else if q < 0 then JSNum.negInf else JSNum.nan)
      else JSNum.fin (q / 0)) (JSNum.fin 255))) = _
    rw [if_pos rfl]
    rcases lt_trichotomy q 0 with hq | hq | hq
    · rw [if_neg (by exact not_lt_of_gt hq), if_pos hq]
      show toUint8Clamp (jsFloor (if (0 : ℚ) < 255 then JSNum.negInf
        else if (255 : ℚ) < 0 then JSNum.posInf else JSNum.nan)) = _
      rw [if_pos (by norm_num)]
      show 0 = byteAtZeroSamples (JSNum.fin q)
      simp only [byteAtZeroSamples]
      rw [if_neg (by exact not_lt_of_gt hq)]
    · subst hq
      rw [if_neg (lt_irrefl 0)]
      rw [if_neg (lt_irrefl 0)]
      show toUint8Clamp (jsFloor (jsMul JSNum.nan (JSNum.fin 255))) = _
      show 0 = byteAtZeroSamples (JSNum.fin 0)
      simp only [byteAtZeroSamples]
      rw [if_neg (lt_irrefl (0 : ℚ))]
    · rw [if_pos hq]
      show toUint8Clamp (jsFloor (if (0 : ℚ) < 255 then JSNum.posInf
        else if (255 : ℚ) < 0 then JSNum.negInf else JSNum.nan)) = _
      rw [if_pos (by norm_num)]
      show 255 = byteAtZeroSamples (JSNum.fin q)
      simp only [byteAtZeroSamples]
      rw [if_pos hq]

/-- C4, violated by the code (stale React state): the effect pass of
src/unnamed/part_000 merges a sample into the buffer ref synchronously but
paints the canvas with the closure value of `numSamples`, which still
reflects the pre-merge count.  On the first pass (initial count 0, sample
all 0.5) the painted image is computed from the sum after one merge paired
with count 0 — all bytes 255 — while a reader pairing that sum with the
post-merge count 1 would see all bytes 127. -/
theorem C4_stale_count_observed :
    (appEffect (List.replicate 4 (JSNum.fin 0)) 0 (List.replicate 4 (JSNum.fin (1 / 2)))).1.2 = 1
    ∧ (appEffect (List.replicate 4 (JSNum.fin 0)) 0 (List.replicate 4 (JSNum.fin (1 / 2)))).2
        = toImageBuffer
            (appEffect (List.replicate 4 (JSNum.fin 0)) 0
              (List.replicate 4 (JSNum.fin (1 / 2)))).1.1 0
    ∧ (appEffect (List.replicate 4 (JSNum.fin 0)) 0 (List.replicate 4 (JSNum.fin (1 / 2)))).2
        = [255, 255, 255, 255]
    ∧ toImageBuffer
        (appEffect (List.replicate 4 (JSNum.fin 0)) 0
          (List.replicate 4 (JSNum.fin (1 / 2)))).1.1 1
        = [127, 127, 127, 127] := by
  refine ⟨by with_unfolding_all rfl, by with_unfolding_all rfl,
    by with_unfolding_all rfl, by with_unfolding_all rfl⟩

/-- C5, violated by the code: the message listener installed by
`callWorker` only logs the event, so a completed WorkResult is never
forwarded to `merge` — the accumulation state is unchanged (merge applied
zero times, not exactly once). -/
theorem C5_result_never_merged (st : AccumState) (result : List ℕ) :
    callWorkerStep st (WorkerEvent.message result) = st
    ∧ (callWorkerStep st (WorkerEvent.message result)).sampleCount = st.sampleCount :=
  ⟨rfl, rfl⟩

/-- C6, counterexample: a worker that errors or terminates before
producing a result is not detectable as `WorkerLost`: `callWorker`
registers no listener for it (only `"message"` has one), no observation
fires, and no state transition occurs — the loss is silently ignored,
contradicting the claimed Pending-to-Lost transition. -/
theorem C6_counterexample :
    ¬ ("error" ∈ callWorkerListeners)
    ∧ callWorkerObserves WorkerEvent.error = false
    ∧ callWorkerStep (emptyAccum 4) WorkerEvent.error = emptyAccum 4 := by
  refine ⟨by decide, rfl, rfl⟩

/-- C6, amended: an in-flight request whose worker terminates or errors is
silently ignored — no listener observes the loss and the state does not
change — and it never invokes `merge` (no worker event changes
`sampleCount`; completed results are merely logged). -/
theorem C6_lost_silently_ignored (st : AccumState) (e : WorkerEvent) :
    callWorkerStep st WorkerEvent.error = st
    ∧ callWorkerStep st WorkerEvent.terminate = st
    ∧ callWorkerObserves WorkerEvent.error = false
    ∧ callWorkerObserves WorkerEvent.terminate = false
    ∧ (callWorkerStep st e).sampleCount = st.sampleCount := by
  cases e <;> exact ⟨rfl, rfl, rfl, rfl, rfl⟩

/-- C7, confirmed: for a sample buffer of matching length, `merge` adds
elementwise into the sum (every index `i` satisfies
`sum[i] := sum[i] + sample[i]`) and increments `sampleCount` by one;
consequently, after `k` merges starting from the fresh state the count is
exactly `k`. -/
theorem C7_merge_effect (st : AccumState) (s : List JSNum) (i n : ℕ)
    (l : List (List JSNum)) (hlen : s.length = st.sum.length)
    (hi : i < st.sum.length) :
    (merge st s).sum[i]?
      = some (jsAdd (st.sum.getD i JSNum.nan) (s.getD i JSNum.nan))
    ∧ (merge st s).sampleCount = st.sampleCount + 1
    ∧ (mergeAll (emptyAccum n) l).sampleCount = l.length := by
  refine ⟨?_, rfl, ?_⟩
  · show (add st.sum s)[i]? = _
    rw [add_getElem?, if_pos hi, addVal_both hi (by rw [hlen]; exact hi)]
  · rw [mergeAll_sampleCount]
    show 0 + l.length = l.length
    exact Nat.zero_add _

/-- C7, witness at one matching merge and two fresh-state merges. -/
theorem C7_merge_effect_witness :
    (merge (emptyAccum 1) [JSNum.fin 2]).sum[0]?
      = some (jsAdd ((emptyAccum 1).sum.getD 0 JSNum.nan)
          (([JSNum.fin 2] : List JSNum).getD 0 JSNum.nan))
    ∧ (merge (emptyAccum 1) [JSNum.fin 2]).sampleCount = (emptyAccum 1).sampleCount + 1
    ∧ (mergeAll (emptyAccum 1) [[JSNum.fin 2], [JSNum.fin 3]]).sampleCount = 2 :=
  C7_merge_effect (emptyAccum 1) [JSNum.fin 2] 0 1 [[JSNum.fin 2], [JSNum.fin 3]]
    (by decide) (by decide)

/-- C8, confirmed: merging a finite set of equal-length sample buffers
into a fresh accumulation state in any permutation yields the same final
state — the same `sum` (exactly, in this exact-rational model, which
implies agreement within any epsilon) and the same `sampleCount`. -/
theorem C8_merge_perm_invariant (n : ℕ) (buffers1 buffers2 : List (List JSNum))
    (hp : buffers1.Perm buffers2) (hlen : ∀ b ∈ buffers1, b.length = n) :
    mergeAll (emptyAccum n) buffers1 = mergeAll (emptyAccum n) buffers2 := by
  apply AccumState.ext
  · rw [mergeAll_sum, mergeAll_sum]
    exact hp.foldl_eq' (fun x _hx y _hy z => add_right_comm z x y) _
  · rw [mergeAll_sampleCount, mergeAll_sampleCount, hp.length_eq]

/-- C8, witness: swapping two one-element buffers gives the same state. -/
theorem C8_merge_perm_invariant_witness :
    mergeAll (emptyAccum 1) [[JSNum.fin 1], [JSNum.fin 2]]
      = mergeAll (emptyAccum 1) [[JSNum.fin 2], [JSNum.fin 1]] :=
  C8_merge_perm_invariant 1 [[JSNum.fin 1], [JSNum.fin 2]] [[JSNum.fin 2], [JSNum.fin 1]]
    (List.Perm.swap [JSNum.fin 2] [JSNum.fin 1] [])
    (by
      intro b hb
      simp only [List.mem_cons, List.not_mem_nil, or_false] at hb
      rcases hb with rfl | rfl <;> rfl)

/-- C9, confirmed (heap model): a call `add(a, b)` allocates a fresh
buffer — its reference is outside the pre-call store — writes the
elementwise sum there, and leaves every pre-existing cell, in particular
the operands `a` and `b`, exactly as before the call. -/
theorem C9_add_no_mutation (store : Store) (ra rb i : ℕ)
    (hi : i < store.bufs.length) :
    (addOnStore store ra rb).1.bufs[i]? = store.bufs[i]?
    ∧ (addOnStore store ra rb).2 = store.bufs.length
    ∧ store.bufs[(addOnStore store ra rb).2]? = none
    ∧ (addOnStore store ra rb).1.bufs[(addOnStore store ra rb).2]?
        = some (add (store.bufs.getD ra []) (store.bufs.getD rb [])) := by
  refine ⟨?_, rfl, ?_, ?_⟩
  · show (store.bufs ++ [add (store.bufs.getD ra []) (store.bufs.getD rb [])])[i]?
      = store.bufs[i]?
    rw [List.getElem?_append]
    rw [if_pos hi]
  · exact List.getElem?_eq_none (le_refl store.bufs.length)
  · exact List.getElem?_concat_length store.bufs
      (add (store.bufs.getD ra []) (store.bufs.getD rb []))

/-- C9, witness on a one-buffer store. -/
theorem C9_add_no_mutation_witness :
    (addOnStore (Store.mk [[JSNum.fin 1]]) 0 0).1.bufs[0]?
        = (Store.mk [[JSNum.fin 1]]).bufs[0]?
    ∧ (addOnStore (Store.mk [[JSNum.fin 1]]) 0 0).2
        = (Store.mk [[JSNum.fin 1]]).bufs.length
    ∧ (Store.mk [[JSNum.fin 1]]).bufs[(addOnStore (Store.mk [[JSNum.fin 1]]) 0 0).2]? = none
    ∧ (addOnStore (Store.mk [[JSNum.fin 1]]) 0 0).1.bufs[(addOnStore
        (Store.mk [[JSNum.fin 1]]) 0 0).2]?
        = some (add ((Store.mk [[JSNum.fin 1]]).bufs.getD 0 [])
            ((Store.mk [[JSNum.fin 1]]).bufs.getD 0 [])) :=
  C9_add_no_mutation (Store.mk [[JSNum.fin 1]]) 0 0 0 (by simp)

/-- C10, confirmed: `toImageBuffer` and `renderImage` are total — for
every input buffer (out-of-range, NaN-valued or infinite entries, and
`numSamples = 0` included) they return a buffer of the same length whose
every element is a natural number at most 255. -/
theorem C10_total_and_clamped (buf : List JSNum) (n : ℕ) (img : List JSNum) :
    (toImageBuffer buf n).length = buf.length
    ∧ (∀ y ∈ toImageBuffer buf n, y ≤ 255)
    ∧ (renderImage img).length = img.length
    ∧ (∀ y ∈ renderImage img, y ≤ 255) := by
  refine ⟨List.length_map buf _, ?_, List.length_map img _, ?_⟩
  · intro y hy
    obtain ⟨x, _hx, hval⟩ := List.mem_map.mp hy
    rw [← hval]
    exact toUint8Clamp_le _
  · intro y hy
    obtain ⟨x, _hx, hval⟩ := List.mem_map.mp hy
    rw [← hval]
    exact toUint8Clamp_le _

/-- C10, witness: a NaN channel at zero samples and an infinite channel
through `renderImage`. -/
theorem C10_total_and_clamped_witness :
    (toImageBuffer [JSNum.nan] 0).length = 1
    ∧ (0 : ℕ) ≤ 255
    ∧ (renderImage [JSNum.posInf]).length = 1
    ∧ (255 : ℕ) ≤ 255 :=
  ⟨(C10_total_and_clamped [JSNum.nan] 0 [JSNum.posInf]).1,
   (C10_total_and_clamped [JSNum.nan] 0 [JSNum.posInf]).2.1 0 (by decide),
   (C10_total_and_clamped [JSNum.nan] 0 [JSNum.posInf]).2.2.1,
   (C10_total_and_clamped [JSNum.nan] 0 [JSNum.posInf]).2.2.2 255 (by decide)⟩

end Raytracer
